/-
Verification of the MLPCpp neural-network evaluation library
(CNeuralNetwork.hpp) against its natural-language specification.

The C++ code is shallowly embedded: `mlpdouble` (double) is modelled as ℝ,
member-mutating methods become explicit state-passing functions, and the
layer storage class `CLayer` (whose header is not part of the sources,
only its call sites) is modelled from the spec as a record of per-neuron
buffers.
-/
import Mathlib

namespace MLPToolbox

/-- Modelled from the spec: `variable_def.hpp` (missing from the sources)
declares the scaling-strategy enumeration with the three strategies
min-max, standardization and robust. -/
inductive ENUM_SCALING_FUNCTIONS : Type
  | MINMAX
  | STANDARD
  | ROBUST
deriving DecidableEq

/-- Modelled from the spec: `CLayer.hpp` (missing from the sources) holds
per-neuron outputs, biases, and first/second derivative buffers, plus the
flag marking the input layer. Buffers are modelled as total functions on
neuron/input indices. -/
structure CLayer where
  nNeurons : Nat
  outputs : Nat → ℝ
  bias : Nat → ℝ
  dYdX : Nat → Nat → ℝ
  d2YdX2 : Nat → Nat → Nat → ℝ
  is_input : Bool

instance : Inhabited CLayer :=
  ⟨{ nNeurons := 0, outputs := fun _ => 0, bias := fun _ => 0,
     dYdX := fun _ _ => 0, d2YdX2 := fun _ _ _ => 0, is_input := false }⟩

def CLayer.GetOutput (L : CLayer) (i : Nat) : ℝ := L.outputs i

def CLayer.GetBias (L : CLayer) (i : Nat) : ℝ := L.bias i

def CLayer.GetdYdX (L : CLayer) (i j : Nat) : ℝ := L.dYdX i j

def CLayer.Getd2YdX2 (L : CLayer) (i j k : Nat) : ℝ := L.d2YdX2 i j k

def CLayer.SetOutput (L : CLayer) (i : Nat) (v : ℝ) : CLayer :=
  { L with outputs := Function.update L.outputs i v }

def CLayer.SetdYdX (L : CLayer) (i j : Nat) (v : ℝ) : CLayer :=
  { L with dYdX := fun a b => if a = i ∧ b = j then v else L.dYdX a b }

def CLayer.Setd2YdX2 (L : CLayer) (i j k : Nat) (v : ℝ) : CLayer :=
  { L with d2YdX2 := fun a b c => if a = i ∧ b = j ∧ c = k then v else L.d2YdX2 a b c }

/-- The static data of a `CNeuralNetwork`: weights, activation tags and
normalization settings. Activation tags use the numeric values of
`ENUM_ACTIVATION_FUNCTION` (NONE=0, LINEAR=1, RELU=2, ELU=3, GELU=4,
SELU=5, SIGMOID=6, SWISH=7, TANH=8, EXPONENTIAL=9). -/
structure NetConfig where
  weights_mat : Nat → Nat → Nat → ℝ
  activation_function_types : Nat → Nat
  input_reg_method : ENUM_SCALING_FUNCTIONS
  output_reg_method : ENUM_SCALING_FUNCTIONS
  input_norm : List (ℝ × ℝ)
  output_norm : List (ℝ × ℝ)
  compute_gradient : Bool
  compute_second_gradient : Bool

/-- CNeuralNetwork::NormalizeInput: min-max maps x to (x-min)/(max-min);
standardization/robust (and the default case) map x to (x-first)/second. -/
noncomputable def NormalizeInput (cfg : NetConfig) (val_input_dim : ℝ) (iInput : Nat) : ℝ :=
  let p := cfg.input_norm.getD iInput (0, 0)
  match cfg.input_reg_method with
  | ENUM_SCALING_FUNCTIONS.MINMAX => (val_input_dim - p.1) / (p.2 - p.1)
  | _ => (val_input_dim - p.1) / p.2

/-- CNeuralNetwork::GetRegularizationScale. Note: the C++ switches on the
`input_reg_method` member even when `is_input` is false (acting on
outputs); this embedding reproduces that. -/
noncomputable def GetRegularizationScale (cfg : NetConfig) (iInput : Nat) (isIn : Bool) : ℝ :=
  match cfg.input_reg_method with
  | ENUM_SCALING_FUNCTIONS.MINMAX =>
      if isIn then (cfg.input_norm.getD iInput (0, 0)).2 - (cfg.input_norm.getD iInput (0, 0)).1
      else (cfg.output_norm.getD iInput (0, 0)).2 - (cfg.output_norm.getD iInput (0, 0)).1
  | _ =>
      if isIn then (cfg.input_norm.getD iInput (0, 0)).2
      else (cfg.output_norm.getD iInput (0, 0)).2

/-- CNeuralNetwork::DimensionalizeOutput. Note: the C++ switches on the
`input_reg_method` member, not `output_reg_method`; this embedding
reproduces that. -/
noncomputable def DimensionalizeOutput (cfg : NetConfig) (val_output_norm : ℝ) (iOutput : Nat) : ℝ :=
  let p := cfg.output_norm.getD iOutput (0, 0)
  match cfg.input_reg_method with
  | ENUM_SCALING_FUNCTIONS.MINMAX => (p.2 - p.1) * val_output_norm + p.1
  | _ => p.2 * val_output_norm + p.1

/-- A network configuration using strategy `m` with the single parameter
pair `p` for both its input and its output side. -/
noncomputable def sameNormConfig (m : ENUM_SCALING_FUNCTIONS) (p : ℝ × ℝ) : NetConfig :=
  { weights_mat := fun _ _ _ => 0
    activation_function_types := fun _ => 0
    input_reg_method := m
    output_reg_method := m
    input_norm := [p]
    output_norm := [p]
    compute_gradient := false
    compute_second_gradient := false }

/-- C7: for every normalization strategy and every parameter pair with
nonzero scale, denormalizing the normalized value returns the original:
DimensionalizeOutput (NormalizeInput x) = x when inputs and outputs use
the same strategy and the same parameter pair. -/
theorem C7_normalization_round_trip (m : ENUM_SCALING_FUNCTIONS) (p : ℝ × ℝ) (x : ℝ)
    (h1 : m = ENUM_SCALING_FUNCTIONS.MINMAX → p.2 - p.1 ≠ 0)
    (h2 : m ≠ ENUM_SCALING_FUNCTIONS.MINMAX → p.2 ≠ 0) :
    DimensionalizeOutput (sameNormConfig m p) (NormalizeInput (sameNormConfig m p) x 0) 0 = x := by
  cases m with
  | MINMAX =>
      have hp := h1 rfl
      simp only [DimensionalizeOutput, NormalizeInput, sameNormConfig, List.getD]
      field_simp
  | STANDARD =>
      have hp := h2 (by simp)
      simp only [DimensionalizeOutput, NormalizeInput, sameNormConfig, List.getD]
      field_simp
  | ROBUST =>
      have hp := h2 (by simp)
      simp only [DimensionalizeOutput, NormalizeInput, sameNormConfig, List.getD]
      field_simp

theorem C7_normalization_round_trip_witness :
    DimensionalizeOutput (sameNormConfig ENUM_SCALING_FUNCTIONS.MINMAX ((0 : ℝ), (2 : ℝ)))
      (NormalizeInput (sameNormConfig ENUM_SCALING_FUNCTIONS.MINMAX ((0 : ℝ), (2 : ℝ))) 5 0) 0 = 5 :=
  C7_normalization_round_trip ENUM_SCALING_FUNCTIONS.MINMAX ((0 : ℝ), (2 : ℝ)) 5
    (fun _ => by norm_num) (fun h => absurd rfl h)

/-- A configuration whose input strategy (standardization) differs from its
output strategy (min-max), with output parameter pair (1, 3). -/
noncomputable def mixedNormConfig : NetConfig :=
  { weights_mat := fun _ _ _ => 0
    activation_function_types := fun _ => 0
    input_reg_method := ENUM_SCALING_FUNCTIONS.STANDARD
    output_reg_method := ENUM_SCALING_FUNCTIONS.MINMAX
    input_norm := []
    output_norm := [((1 : ℝ), (3 : ℝ))]
    compute_gradient := false
    compute_second_gradient := false }

/-- C4: with output strategy min-max but input strategy standardization and
output pair (1, 3), the code branches on the input strategy: it
denormalizes y = 1 to second·y + first = 4 (the claim's output-keyed
min-max formula gives (max − min)·y + min = 3) and reports derivative
scale second = 3 (the claim gives max − min = 2). -/
theorem C4_output_scaling_uses_input_method :
    DimensionalizeOutput mixedNormConfig 1 0 = 4 ∧
    GetRegularizationScale mixedNormConfig 0 false = 3 ∧
    (4 : ℝ) ≠ 3 ∧ (3 : ℝ) ≠ 2 := by
  refine ⟨?_, ?_, by norm_num, by norm_num⟩
  · simp only [DimensionalizeOutput, mixedNormConfig, List.getD]
    norm_num
  · simp only [GetRegularizationScale, mixedNormConfig, List.getD]
    norm_num

/-- CNeuralNetwork::activation_function_map: the recognized activation
function names and their `ENUM_ACTIVATION_FUNCTION` values. -/
def activation_function_map : List (String × Nat) :=
  [("none", 0), ("linear", 1), ("elu", 3), ("relu", 2), ("gelu", 4),
   ("selu", 5), ("sigmoid", 6), ("swish", 7), ("tanh", 8), ("exponential", 9)]

/-- CNeuralNetwork::SetActivationFunction: stores the looked-up tag for the
layer. The C++ dereferences `activation_function_map.find(input)` without
comparing against `end()`; a `none` entry models that unchecked
dereference of a missing map entry (undefined behavior, no error path). -/
def SetActivationFunction (types : List (Option Nat)) (i_layer : Nat) (input : String) :
    List (Option Nat) :=
  types.set i_layer (activation_function_map.lookup input)

/-- C8: the name "softmax" is not in the recognized map, yet
SetActivationFunction performs no rejection: it simply stores the result
of the unchecked map lookup (`none`, i.e. the dereferenced end iterator)
for the layer, with no error raised. -/
theorem C8_unrecognized_name_not_rejected :
    activation_function_map.lookup "softmax" = none ∧
    SetActivationFunction [some 0, some 0] 1 "softmax" = [some 0, none] := by
  constructor
  · rfl
  · rfl


/-- The lookup maps of GetVariableMapping: `lookup_map[name] = i` is set for
i = 0, 1, ... in order, so a duplicated name keeps the index of its last
occurrence; `find` yields that index, or nothing when the name is absent. -/
def mapFind : List String → String → Option Nat
  | [], _ => none
  | x :: rest, s =>
    match mapFind rest s with
    | some j => some (j + 1)
    | none => if x = s then some 0 else none

theorem mapFind_eq_none_iff (xs : List String) (s : String) :
    mapFind xs s = none ↔ s ∉ xs := by
  induction xs with
  | nil => simp [mapFind]
  | cons x rest ih =>
    simp only [mapFind, List.mem_cons]
    cases h : mapFind rest s with
    | some j =>
      have hmem : s ∈ rest := by
        by_contra hn
        rw [ih.mpr hn] at h
        cases h
      simp [hmem]
    | none =>
      have hrest : s ∉ rest := ih.mp h
      by_cases hxs : x = s
      · simp [hxs]
      · simp [hxs, hrest]
        exact fun hsx => hxs hsx.symm

/-- The input-matching loop of GetVariableMapping: pairs every network
input name (starting at network index `i`) with its lookup index, failing
when any name is absent from the lookup list. -/
def matchInputsAux (lin : List String) : List String → Nat → Option (List (Nat × Nat))
  | [], _ => some []
  | name :: rest, i =>
    match mapFind lin name, matchInputsAux lin rest (i + 1) with
    | some j, some tail => some ((j, i) :: tail)
    | _, _ => none

/-- The output-matching loop of GetVariableMapping: pairs the network
output names (starting at network index `i`) found in the lookup list,
skipping the absent ones. -/
def matchOutputsAux (lout : List String) : List String → Nat → List (Nat × Nat)
  | [], _ => []
  | name :: rest, i =>
    match mapFind lout name with
    | some j => (j, i) :: matchOutputsAux lout rest (i + 1)
    | none => matchOutputsAux lout rest (i + 1)

theorem matchInputsAux_isSome_iff (lin names : List String) (i : Nat) :
    (matchInputsAux lin names i).isSome = true ↔ ∀ s ∈ names, s ∈ lin := by
  induction names generalizing i with
  | nil => simp [matchInputsAux]
  | cons name rest ih =>
    simp only [matchInputsAux]
    cases hf : mapFind lin name with
    | none =>
      have hmem : name ∉ lin := (mapFind_eq_none_iff lin name).mp hf
      simp [hmem]
    | some j =>
      have hmem : name ∈ lin := by
        by_contra hn
        rw [(mapFind_eq_none_iff lin name).mpr hn] at hf
        cases hf
      cases ht : matchInputsAux lin rest (i + 1) with
      | none =>
        have hrest := (ih (i + 1)).not
        rw [ht] at hrest
        simp only [Option.isSome_none, Bool.false_eq_true, not_false_iff, true_iff] at hrest
        simp only [Option.isSome_none, Bool.false_eq_true, false_iff]
        intro hall
        exact hrest fun s hs => hall s (List.mem_cons_of_mem _ hs)
      | some tail =>
        have hrest := ih (i + 1)
        rw [ht] at hrest
        simp only [Option.isSome_some, true_iff] at hrest
        simp only [Option.isSome_some, true_iff]
        intro s hs
        rcases List.mem_cons.mp hs with rfl | hs2
        · exact hmem
        · exact hrest s hs2

theorem matchInputsAux_map_snd (lin : List String) (names : List String) :
    ∀ (i : Nat) (l : List (Nat × Nat)), matchInputsAux lin names i = some l →
      l.map Prod.snd = List.range' i names.length := by
  induction names with
  | nil =>
    intro i l h
    simp only [matchInputsAux, Option.some.injEq] at h
    subst h
    simp
  | cons name rest ih =>
    intro i l h
    simp only [matchInputsAux] at h
    cases hf : mapFind lin name with
    | none => rw [hf] at h; cases h
    | some j =>
      rw [hf] at h
      cases ht : matchInputsAux lin rest (i + 1) with
      | none => rw [ht] at h; cases h
      | some tail =>
        rw [ht] at h
        simp only [Option.some.injEq] at h
        subst h
        simp only [List.map_cons, List.length_cons, List.range'_succ]
        rw [ih (i + 1) tail ht]

theorem matchOutputsAux_eq_nil_iff (lout names : List String) (i : Nat) :
    matchOutputsAux lout names i = [] ↔ ∀ s ∈ names, s ∉ lout := by
  induction names generalizing i with
  | nil => simp [matchOutputsAux]
  | cons name rest ih =>
    simp only [matchOutputsAux]
    cases hf : mapFind lout name with
    | some j =>
      have hmem : name ∈ lout := by
        by_contra hn
        rw [(mapFind_eq_none_iff lout name).mpr hn] at hf
        cases hf
      simp [hmem]
    | none =>
      have hmem : name ∉ lout := (mapFind_eq_none_iff lout name).mp hf
      rw [ih (i + 1)]
      constructor
      · intro hall s hs
        rcases List.mem_cons.mp hs with rfl | hs2
        · exact hmem
        · exact hall s hs2
      · intro hall s hs
        exact hall s (List.mem_cons_of_mem _ hs)

/-- The result of a variable-matching query (struct MatchResult). -/
structure MatchResult where
  is_match : Bool := false
  input_indices : List (Nat × Nat) := []
  output_indices : List (Nat × Nat) := []

/-- CNeuralNetwork::GetVariableMapping: strict total matching of network
inputs against the lookup inputs, permissive matching of network outputs
against the lookup outputs. -/
def GetVariableMapping (input_names output_names lookup_inputs lookup_outputs : List String) :
    MatchResult :=
  if input_names.length > lookup_inputs.length then {}
  else
    match matchInputsAux lookup_inputs input_names 0 with
    | none => {}
    | some inPairs =>
      if matchOutputsAux lookup_outputs output_names 0 = [] then
        { is_match := false, input_indices := inPairs, output_indices := [] }
      else
        { is_match := true, input_indices := inPairs,
          output_indices := matchOutputsAux lookup_outputs output_names 0 }

/-- C2: for pairwise-distinct network input and output names, the mapping
reports a match exactly when every network input name appears among the
lookup inputs and at least one network output name appears among the
lookup outputs. -/
theorem C2_variable_mapping_match_iff
    (input_names output_names lookup_inputs lookup_outputs : List String)
    (hin : input_names.Nodup) (hout : output_names.Nodup) :
    (GetVariableMapping input_names output_names lookup_inputs lookup_outputs).is_match = true ↔
      ((∀ s ∈ input_names, s ∈ lookup_inputs) ∧ ∃ s ∈ output_names, s ∈ lookup_outputs) := by
  unfold GetVariableMapping
  split
  next hlen =>
    constructor
    · intro h
      exact absurd h (by decide)
    · rintro ⟨hall, -⟩
      have hsub : input_names ⊆ lookup_inputs := fun s hs => hall s hs
      have := (List.subperm_of_subset hin hsub).length_le
      omega
  next hlen =>
    split
    next hfind =>
      constructor
      · intro h
        exact absurd h (by decide)
      · rintro ⟨hall, -⟩
        have hs := (matchInputsAux_isSome_iff lookup_inputs input_names 0).mpr hall
        rw [hfind] at hs
        cases hs
    next inPairs hfind =>
      have hall : ∀ s ∈ input_names, s ∈ lookup_inputs := by
        have hs := (matchInputsAux_isSome_iff lookup_inputs input_names 0).mp
        rw [hfind] at hs
        exact hs rfl
      split
      next hnil =>
        constructor
        · intro h
          exact Bool.noConfusion h
        · rintro ⟨-, s, hs1, hs2⟩
          exact absurd hs2
            ((matchOutputsAux_eq_nil_iff lookup_outputs output_names 0).mp hnil s hs1)
      next hnil =>
        constructor
        · intro _
          refine ⟨hall, ?_⟩
          by_contra hno
          push_neg at hno
          exact hnil ((matchOutputsAux_eq_nil_iff lookup_outputs output_names 0).mpr hno)
        · intro _
          rfl

theorem C2_variable_mapping_match_iff_witness :
    (GetVariableMapping ["u", "v"] ["y", "z"] ["u", "v", "w"] ["y"]).is_match = true :=
  (C2_variable_mapping_match_iff ["u", "v"] ["y", "z"] ["u", "v", "w"] ["y"]
      (by decide) (by decide)).mpr ⟨by decide, "y", by decide, by decide⟩

/-- C3 counterexample: with network inputs {u}, outputs {y}, lookup inputs
{u} and an empty lookup-output list, the result has is_match = false but a
non-empty input-index list. -/
theorem C3_counterexample :
    (GetVariableMapping ["u"] ["y"] ["u"] []).is_match = false ∧
    (GetVariableMapping ["u"] ["y"] ["u"] []).input_indices ≠ [] := by
  constructor
  · rfl
  · intro h
    cases h

/-- C3 (amended): whenever GetVariableMapping reports is_match = false, the
output-index list is empty; the input-index list, however, retains the
complete input pairs when every network input matched but no network
output did. -/
theorem C3_nonmatch_output_indices_empty
    (input_names output_names lookup_inputs lookup_outputs : List String)
    (h : (GetVariableMapping input_names output_names lookup_inputs lookup_outputs).is_match
          = false) :
    (GetVariableMapping input_names output_names lookup_inputs lookup_outputs).output_indices
      = [] := by
  revert h
  unfold GetVariableMapping
  split
  · intro _
    rfl
  · split
    · intro _
      rfl
    · split
      · intro _
        rfl
      · intro h
        exact Bool.noConfusion h

theorem C3_nonmatch_output_indices_empty_witness :
    (GetVariableMapping ["u"] ["y"] [] ["y"]).output_indices = [] :=
  C3_nonmatch_output_indices_empty ["u"] ["y"] [] ["y"] (by decide)

/-- C9: whenever the mapping reports a match, every network input index
below the input count appears exactly once as the network-side component
of the input-index list, and the output-index list is non-empty. -/
theorem C9_match_strict_input_coverage
    (input_names output_names lookup_inputs lookup_outputs : List String)
    (hin : input_names.Nodup)
    (h : (GetVariableMapping input_names output_names lookup_inputs lookup_outputs).is_match
          = true) :
    (∀ i < input_names.length,
      ((GetVariableMapping input_names output_names lookup_inputs
          lookup_outputs).input_indices.map Prod.snd).count i = 1) ∧
    (GetVariableMapping input_names output_names lookup_inputs
        lookup_outputs).output_indices ≠ [] := by
  revert h
  unfold GetVariableMapping
  split
  · intro h
    exact absurd h (by decide)
  · split
    · intro h
      exact absurd h (by decide)
    next inPairs hfind =>
      split
      next hnil =>
        intro h
        exact Bool.noConfusion h
      next hnil =>
        intro _
        have hsnd := matchInputsAux_map_snd lookup_inputs input_names 0 inPairs hfind
        rw [← List.range_eq_range'] at hsnd
        refine ⟨?_, hnil⟩
        intro i hi
        show (inPairs.map Prod.snd).count i = 1
        rw [hsnd]
        exact List.count_eq_one_of_mem (List.nodup_range _) (List.mem_range.mpr hi)

theorem C9_match_strict_input_coverage_witness :
    (((GetVariableMapping ["u", "v"] ["y", "z"] ["u", "v", "w"]
        ["y"]).input_indices.map Prod.snd).count 0 = 1) ∧
    (GetVariableMapping ["u", "v"] ["y", "z"] ["u", "v", "w"] ["y"]).output_indices ≠ [] :=
  ⟨(C9_match_strict_input_coverage ["u", "v"] ["y", "z"] ["u", "v", "w"] ["y"]
      (by decide) (by decide)).1 0 (by decide),
   (C9_match_strict_input_coverage ["u", "v"] ["y", "z"] ["u", "v", "w"] ["y"]
      (by decide) (by decide)).2⟩

/-- The three activation-evaluation members of CNeuralNetwork (Phi,
Phi_prime, Phi_dprime), set by ActivationFunction and read back by
Predict. -/
structure ActOut where
  Phi : ℝ
  Phi_prime : ℝ
  Phi_dprime : ℝ

/-- Modelled from the spec: the C++ std::erf used by the GELU activation,
the standard error function erf(x) = 2/√π · ∫ from 0 to x of exp(−t²). -/
noncomputable def erf (x : ℝ) : ℝ :=
  (2 / Real.sqrt Real.pi) * ∫ t in (0 : ℝ)..x, Real.exp (-(t ^ 2))

/-- CNeuralNetwork::ActivationFunction: evaluates the activation selected
by the layer tag at the pre-activation `x`, conditionally overwriting the
members Phi / Phi_prime / Phi_dprime (held in `prev`) exactly as the C++
conditional assignments do. Tags: NONE=0, LINEAR=1, RELU=2, ELU=3, GELU=4,
SELU=5, SIGMOID=6, SWISH=7, TANH=8, EXPONENTIAL=9; any other tag hits the
default case of the switch, which leaves all three members untouched. -/
noncomputable def ActivationFunction (tag : Nat) (cg csg : Bool) (x : ℝ) (prev : ActOut) :
    ActOut :=
  let alpha : ℝ := 1.67326324
  let lam : ℝ := 1.05070098
  let gelu_c : ℝ := 1.702
  match tag with
  | 3 =>
    if x > 0 then
      { Phi := x,
        Phi_prime := if cg then 1 else prev.Phi_prime,
        Phi_dprime := if cg then (if csg then 0 else prev.Phi_dprime) else prev.Phi_dprime }
    else
      { Phi := Real.exp x - 1,
        Phi_prime := if cg then Real.exp x else prev.Phi_prime,
        Phi_dprime :=
          if cg then (if csg then Real.exp x else prev.Phi_dprime) else prev.Phi_dprime }
  | 1 =>
    { Phi := x,
      Phi_prime := if cg then 1 else prev.Phi_prime,
      Phi_dprime := if cg then (if csg then 0 else prev.Phi_dprime) else prev.Phi_dprime }
  | 9 =>
    { Phi := Real.exp x,
      Phi_prime := if cg then Real.exp x else prev.Phi_prime,
      Phi_dprime :=
        if cg then (if csg then Real.exp x else prev.Phi_dprime) else prev.Phi_dprime }
  | 2 =>
    { Phi := if x > 0 then x else 0,
      Phi_prime := if cg then (if x > 0 then 1 else 0) else prev.Phi_prime,
      Phi_dprime := if csg then 0 else prev.Phi_dprime }
  | 7 =>
    { Phi := x / (1 + Real.exp (-x)),
      Phi_prime :=
        if cg then Real.exp x * (x + Real.exp x + 1) / (Real.exp x + 1) ^ 2
        else prev.Phi_prime,
      Phi_dprime :=
        if cg then
          (if csg then
            Real.exp x * (-(Real.exp x) * (x - 2) + x + 2) / (Real.exp x + 1) ^ 3
          else prev.Phi_dprime)
        else prev.Phi_dprime }
  | 8 =>
    { Phi := Real.tanh x,
      Phi_prime := if cg then 1 / Real.cosh x ^ 2 else prev.Phi_prime,
      Phi_dprime :=
        if cg then
          (if csg then -2 * Real.tanh x * 1 / Real.cosh x ^ 2 else prev.Phi_dprime)
        else prev.Phi_dprime }
  | 6 =>
    { Phi := 1 / (1 + Real.exp (-x)),
      Phi_prime := if cg then Real.exp (-x) / (Real.exp (-x) + 1) ^ 2 else prev.Phi_prime,
      Phi_dprime :=
        if cg then
          (if csg then -(Real.exp x * (Real.exp x - 1)) / (Real.exp x + 1) ^ 3
          else prev.Phi_dprime)
        else prev.Phi_dprime }
  | 5 =>
    if x > 0 then
      { Phi := lam * x,
        Phi_prime := if cg then lam else prev.Phi_prime,
        Phi_dprime := if cg then (if csg then 0 else prev.Phi_dprime) else prev.Phi_dprime }
    else
      { Phi := lam * alpha * (Real.exp x - 1),
        Phi_prime :=
          if cg then lam * alpha * (Real.exp x - 1) + lam * alpha else prev.Phi_prime,
        Phi_dprime :=
          if cg then
            (if csg then lam * alpha * (Real.exp x - 1) + lam * alpha else prev.Phi_dprime)
          else prev.Phi_dprime }
  | 4 =>
    { Phi := 0.5 * x * (1 + erf (x / Real.sqrt 2)),
      Phi_prime :=
        if cg then
          Real.exp (-gelu_c * x) * (gelu_c * x + Real.exp (-gelu_c * x) + 1) /
            (Real.exp (-gelu_c * x) + 1) ^ 2
        else prev.Phi_prime,
      Phi_dprime :=
        if cg then
          (if csg then
            x * ((5.79361 * Real.exp (-gelu_c * x) ^ 2 / (Real.exp (-gelu_c * x) + 1) ^ 3) -
                  (2.8968 * Real.exp (-gelu_c * x) / (Real.exp (-gelu_c * x) + 1) ^ 2)) +
              3.404 * Real.exp (-gelu_c * x) / (Real.exp (-gelu_c * x) + 1) ^ 2
          else prev.Phi_dprime)
        else prev.Phi_dprime }
  | 0 =>
    { Phi := 0,
      Phi_prime := if cg then 0 else prev.Phi_prime,
      Phi_dprime := if cg then (if csg then 0 else prev.Phi_dprime) else prev.Phi_dprime }
  | _ => prev

/-- The activation evaluation with both derivative modes on, started from
zeroed members; for every valid tag this is the full (value, first
derivative, second derivative) triple of the selected activation at x. -/
noncomputable def actEval (tag : Nat) (x : ℝ) : ActOut :=
  ActivationFunction tag true true x { Phi := 0, Phi_prime := 0, Phi_dprime := 0 }

theorem ActivationFunction_eval (tag : Nat) (htag : tag ≤ 9) (x : ℝ) (prev : ActOut) :
    ActivationFunction tag true true x prev = actEval tag x := by
  interval_cases tag <;> rfl

/-- C5 counterexample: at the nonzero input −1 (where ELU's second
derivative exists) the evaluator stores exp(−1) ≠ 0 as ELU's second
derivative, refuting the claim that RELU and ELU always yield a zero
second derivative. -/
theorem C5_counterexample :
    (-1 : ℝ) ≠ 0 ∧
    (ActivationFunction 3 true true (-1) ⟨0, 0, 0⟩).Phi_dprime ≠ 0 := by
  refine ⟨by norm_num, ?_⟩
  simp only [ActivationFunction]
  rw [if_neg (by norm_num : ¬((-1 : ℝ) > 0))]
  show Real.exp (-1) ≠ 0
  exact Real.exp_ne_zero (-1)

/-- C5 (amended): with second-derivative mode enabled, RELU's second
derivative is 0 at every input (whenever `compute_second_gradient` holds,
even without the first-order flag); ELU's second derivative is 0 only for
positive inputs and equals exp(x) — ELU's analytic second derivative —
for non-positive inputs. -/
theorem C5_relu_elu_second_derivative (cg : Bool) (x : ℝ) (prev : ActOut) :
    (ActivationFunction 2 cg true x prev).Phi_dprime = 0 ∧
    (0 < x → (ActivationFunction 3 true true x prev).Phi_dprime = 0) ∧
    (x ≤ 0 → (ActivationFunction 3 true true x prev).Phi_dprime = Real.exp x) := by
  refine ⟨rfl, ?_, ?_⟩
  · intro hx
    simp only [ActivationFunction]
    rw [if_pos hx]
    simp
  · intro hx
    simp only [ActivationFunction]
    rw [if_neg (not_lt.mpr hx)]
    simp

theorem C5_relu_elu_second_derivative_witness :
    (ActivationFunction 2 true true 1 ⟨0, 0, 0⟩).Phi_dprime = 0 ∧
    (ActivationFunction 3 true true 1 ⟨0, 0, 0⟩).Phi_dprime = 0 :=
  ⟨(C5_relu_elu_second_derivative true 1 ⟨0, 0, 0⟩).1,
   (C5_relu_elu_second_derivative true 1 ⟨0, 0, 0⟩).2.1 (by norm_num)⟩

/-- C6 counterexample: for the unknown tag 10, the switch's default case
leaves the previously stored activation value (here 5) in place instead of
yielding 0, refuting the claim that unknown tags yield value 0. -/
theorem C6_counterexample :
    (ActivationFunction 10 true true 0 ⟨5, 7, 9⟩).Phi ≠ 0 := by
  show (5 : ℝ) ≠ 0
  norm_num

/-- C6 (amended): the NONE tag yields activation value 0 and, under the
corresponding derivative-mode flags, zero first and second derivatives;
an unknown tag (10 or above), however, hits the switch's default case,
which leaves the previously stored value and derivatives unchanged. -/
theorem C6_none_zero_default_unchanged (cg csg : Bool) (x : ℝ) (prev : ActOut) (u : Nat) :
    (ActivationFunction 0 cg csg x prev).Phi = 0 ∧
    (cg = true → (ActivationFunction 0 cg csg x prev).Phi_prime = 0) ∧
    (cg = true → csg = true → (ActivationFunction 0 cg csg x prev).Phi_dprime = 0) ∧
    ActivationFunction (u + 10) cg csg x prev = prev := by
  refine ⟨rfl, ?_, ?_, rfl⟩
  · rintro rfl
    rfl
  · rintro rfl rfl
    rfl

theorem C6_none_zero_default_unchanged_witness :
    (ActivationFunction 0 true true 3 ⟨1, 2, 3⟩).Phi = 0 ∧
    (ActivationFunction 0 true true 3 ⟨1, 2, 3⟩).Phi_prime = 0 ∧
    (ActivationFunction 0 true true 3 ⟨1, 2, 3⟩).Phi_dprime = 0 ∧
    ActivationFunction 10 true true 3 ⟨1, 2, 3⟩ = ⟨1, 2, 3⟩ :=
  ⟨(C6_none_zero_default_unchanged true true 3 ⟨1, 2, 3⟩ 0).1,
   (C6_none_zero_default_unchanged true true 3 ⟨1, 2, 3⟩ 0).2.1 rfl,
   (C6_none_zero_default_unchanged true true 3 ⟨1, 2, 3⟩ 0).2.2.1 rfl rfl,
   (C6_none_zero_default_unchanged true true 3 ⟨1, 2, 3⟩ 0).2.2.2⟩

/-- The mutable evaluation state of a CNeuralNetwork: the layer collection
(total_layers, with total_layers[0] the input layer), the activation
members, and the readable output and derivative buffers. -/
structure NetState where
  layers : List CLayer
  act : ActOut
  ANN_outputs : Nat → ℝ
  dOutputs_dInputs : Nat → Nat → ℝ
  d2Outputs_dInputs2 : Nat → Nat → Nat → ℝ

/-- CNeuralNetwork::ComputeX: bias of the current neuron plus the weighted
sum of the previous layer's outputs. -/
noncomputable def ComputeX (cfg : NetConfig) (iLayer : Nat) (cur prev : CLayer)
    (iNeuron : Nat) : ℝ :=
  cur.GetBias iNeuron +
    ∑ jNeuron ∈ Finset.range prev.nNeurons,
      cfg.weights_mat (iLayer - 1) iNeuron jNeuron * prev.GetOutput jNeuron

/-- CNeuralNetwork::ComputePsi: weighted sum of the previous layer's first
derivatives with respect to input variable jInput. -/
noncomputable def ComputePsi (cfg : NetConfig) (iLayer : Nat) (prev : CLayer)
    (iNeuron jInput : Nat) : ℝ :=
  ∑ jNeuron ∈ Finset.range prev.nNeurons,
    cfg.weights_mat (iLayer - 1) iNeuron jNeuron * prev.GetdYdX jNeuron jInput

/-- CNeuralNetwork::ComputeChi: weighted sum of the previous layer's second
derivatives with respect to the input pair (jInput, kInput). -/
noncomputable def ComputeChi (cfg : NetConfig) (iLayer : Nat) (prev : CLayer)
    (iNeuron jInput kInput : Nat) : ℝ :=
  ∑ jNeuron ∈ Finset.range prev.nNeurons,
    cfg.weights_mat (iLayer - 1) iNeuron jNeuron * prev.Getd2YdX2 jNeuron jInput kInput

/-- The innermost (kInput) loop body of Predict's second-derivative
computation: store Φ″·ψⱼ·ψₖ + Φ′·χⱼₖ. -/
noncomputable def kBody (cfg : NetConfig) (iLayer : Nat) (prev : CLayer) (act : ActOut)
    (iNeuron jInput : Nat) (acc2 : CLayer) (kInput : Nat) : CLayer :=
  acc2.Setd2YdX2 iNeuron jInput kInput
    (act.Phi_dprime * ComputePsi cfg iLayer prev iNeuron jInput *
        ComputePsi cfg iLayer prev iNeuron kInput +
      act.Phi_prime * ComputeChi cfg iLayer prev iNeuron jInput kInput)

/-- The jInput loop body of Predict's derivative computation: store the
first derivative ψⱼ·Φ′ and, in second-derivative mode, run the kInput
loop. -/
noncomputable def jBody (cfg : NetConfig) (iLayer : Nat) (prev : CLayer) (nIn : Nat)
    (act : ActOut) (iNeuron : Nat) (acc : CLayer) (jInput : Nat) : CLayer :=
  let acc1 := acc.SetdYdX iNeuron jInput
    (ComputePsi cfg iLayer prev iNeuron jInput * act.Phi_prime)
  if cfg.compute_second_gradient then
    (List.range nIn).foldl (kBody cfg iLayer prev act iNeuron jInput) acc1
  else acc1

/-- The body of Predict's neuron loop for a non-input layer: evaluate the
pre-activation and the activation, store the output, and, under the
derivative-mode flags, store the chain-rule first and second derivatives
for every input variable (nIn is the input-layer neuron count). -/
noncomputable def computeNeuron (cfg : NetConfig) (iLayer : Nat) (prev : CLayer) (nIn : Nat)
    (st : CLayer × ActOut) (iNeuron : Nat) : CLayer × ActOut :=
  let X := ComputeX cfg iLayer st.1 prev iNeuron
  let act := ActivationFunction (cfg.activation_function_types iLayer)
    cfg.compute_gradient cfg.compute_second_gradient X st.2
  let L1 := st.1.SetOutput iNeuron act.Phi
  let L2 :=
    if cfg.compute_gradient then
      (List.range nIn).foldl (jBody cfg iLayer prev nIn act iNeuron) L1
    else L1
  (L2, act)

/-- The innermost (kInput) loop body of the input-layer derivative
seeding: zero the second derivatives. -/
noncomputable def inputKBody (iNeuron jInput : Nat) (acc2 : CLayer) (kInput : Nat) : CLayer :=
  acc2.Setd2YdX2 iNeuron jInput kInput 0

/-- The jInput loop body of the input-layer derivative seeding: identity
row scaled by the inverse regularization scale, then (in second-derivative
mode) the kInput loop. -/
noncomputable def inputJBody (cfg : NetConfig) (nIn : Nat) (iNeuron : Nat)
    (acc : CLayer) (jInput : Nat) : CLayer :=
  let acc1 :=
    if jInput = iNeuron then
      acc.SetdYdX iNeuron jInput (1 / GetRegularizationScale cfg iNeuron true)
    else acc.SetdYdX iNeuron jInput 0
  if cfg.compute_second_gradient then
    (List.range nIn).foldl (inputKBody iNeuron jInput) acc1
  else acc1

/-- CNeuralNetwork::ComputeInputLayer for one input neuron: store the
normalized input and, under the derivative-mode flags, seed the first and
second derivatives. -/
noncomputable def ComputeInputLayer (cfg : NetConfig) (inputs : List ℝ) (nIn : Nat)
    (L : CLayer) (iNeuron : Nat) : CLayer :=
  let x_norm := NormalizeInput cfg (inputs.getD iNeuron 0) iNeuron
  let L1 := L.SetOutput iNeuron x_norm
  if cfg.compute_gradient then
    (List.range nIn).foldl (inputJBody cfg nIn iNeuron) L1
  else L1

/-- One iteration of Predict's layer loop: process every neuron of layer
`iLayer`, via ComputeInputLayer when the layer is flagged as the input
layer and via the activation/chain-rule path otherwise, and store the
updated layer back into the collection (the input layer of a constructed
network is total_layers[0], whose neuron count is the input count). -/
noncomputable def stepLayer (cfg : NetConfig) (inputs : List ℝ)
    (st : List CLayer × ActOut) (iLayer : Nat) : List CLayer × ActOut :=
  let nIn := (st.1.getD 0 default).nNeurons
  let L := st.1.getD iLayer default
  if L.is_input then
    (st.1.set iLayer ((List.range L.nNeurons).foldl (ComputeInputLayer cfg inputs nIn) L),
     st.2)
  else
    let prev := st.1.getD (iLayer - 1) default
    let r := (List.range L.nNeurons).foldl (computeNeuron cfg iLayer prev nIn) (L, st.2)
    (st.1.set iLayer r.1, r.2)

/-- The layer loop of CNeuralNetwork::Predict (everything before the final
call to DeNormalizeOutputs): process the layers in input-to-output
order. -/
noncomputable def forwardPass (cfg : NetConfig) (inputs : List ℝ) (st : NetState) : NetState :=
  let r := (List.range st.layers.length).foldl (stepLayer cfg inputs) (st.layers, st.act)
  { st with
    layers := r.1
    act := r.2 }

/-- The accumulator of the DeNormalizeOutputs loop: the output layer and
the three readable buffers. -/
structure DenormAcc where
  out : CLayer
  ANN_outputs : Nat → ℝ
  dOutputs_dInputs : Nat → Nat → ℝ
  d2Outputs_dInputs2 : Nat → Nat → Nat → ℝ

/-- The innermost (kInput) loop of DeNormalizeOutputs: scale the stored
second derivative and mirror it into the readable buffer. -/
noncomputable def denormKBody (output_scale : ℝ) (iNeuron jInput : Nat)
    (a3 : DenormAcc) (kInput : Nat) : DenormAcc :=
  let L2 := a3.out.Setd2YdX2 iNeuron jInput kInput
    (output_scale * a3.out.Getd2YdX2 iNeuron jInput kInput)
  { a3 with
    out := L2
    d2Outputs_dInputs2 := fun a b c =>
      if a = iNeuron ∧ b = jInput ∧ c = kInput then L2.Getd2YdX2 iNeuron jInput kInput
      else a3.d2Outputs_dInputs2 a b c }

/-- The jInput loop of DeNormalizeOutputs: scale the stored first
derivative, mirror it into the readable buffer, and (in second-derivative
mode) run the kInput loop. -/
noncomputable def denormJBody (cfg : NetConfig) (nIn : Nat) (output_scale : ℝ)
    (iNeuron : Nat) (a2 : DenormAcc) (jInput : Nat) : DenormAcc :=
  let L1 := a2.out.SetdYdX iNeuron jInput (output_scale * a2.out.GetdYdX iNeuron jInput)
  let a2 := { a2 with
    out := L1
    dOutputs_dInputs := fun a b =>
      if a = iNeuron ∧ b = jInput then L1.GetdYdX iNeuron jInput
      else a2.dOutputs_dInputs a b }
  if cfg.compute_second_gradient then
    (List.range nIn).foldl (denormKBody output_scale iNeuron jInput) a2
  else a2

/-- The per-output-neuron body of DeNormalizeOutputs: denormalize the
output value into ANN_outputs and, in gradient mode, rescale the
derivatives. -/
noncomputable def denormNeuron (cfg : NetConfig) (nIn : Nat)
    (acc : DenormAcc) (iNeuron : Nat) : DenormAcc :=
  let y_norm := acc.out.GetOutput iNeuron
  let output_scale := GetRegularizationScale cfg iNeuron false
  let Y_out := DimensionalizeOutput cfg y_norm iNeuron
  let acc := { acc with ANN_outputs := Function.update acc.ANN_outputs iNeuron Y_out }
  if cfg.compute_gradient then
    (List.range nIn).foldl (denormJBody cfg nIn output_scale iNeuron) acc
  else acc

/-- CNeuralNetwork::DeNormalizeOutputs: denormalize every output-layer
value into ANN_outputs and, under the derivative-mode flags, scale the
output layer's first/second derivatives by the output regularization
scale, mirroring them into the readable buffers. -/
noncomputable def DeNormalizeOutputs (cfg : NetConfig) (st : NetState) : NetState :=
  let nIn := (st.layers.getD 0 default).nNeurons
  let iOut := st.layers.length - 1
  let out0 := st.layers.getD iOut default
  let acc := (List.range out0.nNeurons).foldl (denormNeuron cfg nIn)
    ({ out := out0
       ANN_outputs := st.ANN_outputs
       dOutputs_dInputs := st.dOutputs_dInputs
       d2Outputs_dInputs2 := st.d2Outputs_dInputs2 } : DenormAcc)
  { st with
    layers := st.layers.set iOut acc.out
    ANN_outputs := acc.ANN_outputs
    dOutputs_dInputs := acc.dOutputs_dInputs
    d2Outputs_dInputs2 := acc.d2Outputs_dInputs2 }

/-- CNeuralNetwork::Predict: the layer loop followed by output
denormalization. -/
noncomputable def Predict (cfg : NetConfig) (inputs : List ℝ) (st : NetState) : NetState :=
  DeNormalizeOutputs cfg (forwardPass cfg inputs st)

theorem getD_set_of_ne {α : Type _} (l : List α) (i j : Nat) (v d : α) (h : i ≠ j) :
    (l.set i v).getD j d = l.getD j d := by
  simp [List.getD_eq_getElem?_getD, List.getElem?_set_ne h]

theorem getD_set_self {α : Type _} (l : List α) (i : Nat) (v d : α) (h : i < l.length) :
    (l.set i v).getD i d = v := by
  simp [List.getD_eq_getElem?_getD, List.getElem?_set_self, h]

@[simp] theorem CLayer.SetOutput_nNeurons (L : CLayer) (i : Nat) (v : ℝ) :
    (L.SetOutput i v).nNeurons = L.nNeurons := rfl

@[simp] theorem CLayer.SetOutput_bias (L : CLayer) (i : Nat) (v : ℝ) :
    (L.SetOutput i v).bias = L.bias := rfl

@[simp] theorem CLayer.SetOutput_is_inp (L : CLayer) (i : Nat) (v : ℝ) :
    (L.SetOutput i v).is_input = L.is_input := rfl

@[simp] theorem CLayer.SetOutput_dYdX (L : CLayer) (i : Nat) (v : ℝ) :
    (L.SetOutput i v).dYdX = L.dYdX := rfl

@[simp] theorem CLayer.SetOutput_d2YdX2 (L : CLayer) (i : Nat) (v : ℝ) :
    (L.SetOutput i v).d2YdX2 = L.d2YdX2 := rfl

@[simp] theorem CLayer.SetdYdX_nNeurons (L : CLayer) (i j : Nat) (v : ℝ) :
    (L.SetdYdX i j v).nNeurons = L.nNeurons := rfl

@[simp] theorem CLayer.SetdYdX_bias (L : CLayer) (i j : Nat) (v : ℝ) :
    (L.SetdYdX i j v).bias = L.bias := rfl

@[simp] theorem CLayer.SetdYdX_is_inp (L : CLayer) (i j : Nat) (v : ℝ) :
    (L.SetdYdX i j v).is_input = L.is_input := rfl

@[simp] theorem CLayer.SetdYdX_outputs (L : CLayer) (i j : Nat) (v : ℝ) :
    (L.SetdYdX i j v).outputs = L.outputs := rfl

@[simp] theorem CLayer.SetdYdX_d2YdX2 (L : CLayer) (i j : Nat) (v : ℝ) :
    (L.SetdYdX i j v).d2YdX2 = L.d2YdX2 := rfl

theorem CLayer.SetdYdX_dYdX_self (L : CLayer) (i j : Nat) (v : ℝ) :
    (L.SetdYdX i j v).dYdX i j = v := by
  simp [CLayer.SetdYdX]

theorem CLayer.SetdYdX_dYdX_of_ne (L : CLayer) (i j a b : Nat) (v : ℝ)
    (h : ¬(a = i ∧ b = j)) : (L.SetdYdX i j v).dYdX a b = L.dYdX a b := by
  simp only [CLayer.SetdYdX]
  exact if_neg h

@[simp] theorem CLayer.Setd2YdX2_nNeurons (L : CLayer) (i j k : Nat) (v : ℝ) :
    (L.Setd2YdX2 i j k v).nNeurons = L.nNeurons := rfl

@[simp] theorem CLayer.Setd2YdX2_bias (L : CLayer) (i j k : Nat) (v : ℝ) :
    (L.Setd2YdX2 i j k v).bias = L.bias := rfl

@[simp] theorem CLayer.Setd2YdX2_is_inp (L : CLayer) (i j k : Nat) (v : ℝ) :
    (L.Setd2YdX2 i j k v).is_input = L.is_input := rfl

@[simp] theorem CLayer.Setd2YdX2_outputs (L : CLayer) (i j k : Nat) (v : ℝ) :
    (L.Setd2YdX2 i j k v).outputs = L.outputs := rfl

@[simp] theorem CLayer.Setd2YdX2_dYdX (L : CLayer) (i j k : Nat) (v : ℝ) :
    (L.Setd2YdX2 i j k v).dYdX = L.dYdX := rfl

theorem CLayer.Setd2YdX2_d2_self (L : CLayer) (i j k : Nat) (v : ℝ) :
    (L.Setd2YdX2 i j k v).d2YdX2 i j k = v := by
  simp [CLayer.Setd2YdX2]

theorem CLayer.Setd2YdX2_d2_of_ne (L : CLayer) (i j k a b c : Nat) (v : ℝ)
    (h : ¬(a = i ∧ b = j ∧ c = k)) :
    (L.Setd2YdX2 i j k v).d2YdX2 a b c = L.d2YdX2 a b c := by
  simp only [CLayer.Setd2YdX2]
  exact if_neg h

/-- A projection left unchanged by every loop iteration is unchanged by
the whole loop. -/
theorem foldl_preserve {σ τ : Type _} {α : Type _} (f : σ → τ) (body : σ → α → σ)
    (h : ∀ s a, f (body s a) = f s) :
    ∀ (l : List α) (s : σ), f (l.foldl body s) = f s := by
  intro l
  induction l with
  | nil => intro s; rfl
  | cons a t ih => intro s; rw [List.foldl_cons, ih, h]

/-- A slot not visited by an index loop is unchanged by the loop. -/
theorem foldl_skip {σ τ : Type _} (get : σ → Nat → τ) (body : σ → Nat → σ)
    (hs : ∀ s i a, i ≠ a → get (body s a) i = get s i) :
    ∀ (l : List Nat) (i : Nat), i ∉ l → ∀ s, get (l.foldl body s) i = get s i := by
  intro l
  induction l with
  | nil => intro i _ s; rfl
  | cons a t ih =>
    intro i hi s
    rw [List.foldl_cons]
    rw [ih i (fun h2 => hi (List.mem_cons_of_mem a h2)),
      hs s i a (fun h2 => hi (h2 ▸ List.mem_cons_self a t))]

/-- An index loop that visits each slot once and writes a state-independent
value into it (under an invariant `P` preserved by the body) leaves that
value in every visited slot. -/
theorem foldl_write_once {σ τ : Type _} (P : σ → Prop) (get : σ → Nat → τ)
    (body : σ → Nat → σ) (v : Nat → τ)
    (hP : ∀ s a, P s → P (body s a))
    (hw : ∀ s a, P s → get (body s a) a = v a)
    (hs : ∀ s i a, i ≠ a → get (body s a) i = get s i) :
    ∀ (l : List Nat), l.Nodup → ∀ s, P s → ∀ i ∈ l, get (l.foldl body s) i = v i := by
  intro l
  induction l with
  | nil => intro _ s _ i hi; cases hi
  | cons a t ih =>
    intro hnd s hPs i hi
    rw [List.foldl_cons]
    rcases List.mem_cons.mp hi with rfl | hit
    · rw [foldl_skip get body hs t i (List.nodup_cons.mp hnd).1 (body s i), hw s i hPs]
    · exact ih (List.nodup_cons.mp hnd).2 (body s a) (hP s a hPs) i hit

theorem kfold_dYdX (cfg : NetConfig) (iLayer : Nat) (prev : CLayer) (act : ActOut)
    (iN jI : Nat) (l : List Nat) (acc : CLayer) (a b : Nat) :
    ((l.foldl (kBody cfg iLayer prev act iN jI) acc)).dYdX a b = acc.dYdX a b :=
  congrFun (congrFun
    (foldl_preserve CLayer.dYdX (kBody cfg iLayer prev act iN jI) (fun _ _ => rfl) l acc) a) b

theorem kfold_bias (cfg : NetConfig) (iLayer : Nat) (prev : CLayer) (act : ActOut)
    (iN jI : Nat) (l : List Nat) (acc : CLayer) :
    ((l.foldl (kBody cfg iLayer prev act iN jI) acc)).bias = acc.bias :=
  foldl_preserve CLayer.bias (kBody cfg iLayer prev act iN jI) (fun _ _ => rfl) l acc

theorem kfold_nNeurons (cfg : NetConfig) (iLayer : Nat) (prev : CLayer) (act : ActOut)
    (iN jI : Nat) (l : List Nat) (acc : CLayer) :
    ((l.foldl (kBody cfg iLayer prev act iN jI) acc)).nNeurons = acc.nNeurons :=
  foldl_preserve CLayer.nNeurons (kBody cfg iLayer prev act iN jI) (fun _ _ => rfl) l acc

theorem kfold_is_inp (cfg : NetConfig) (iLayer : Nat) (prev : CLayer) (act : ActOut)
    (iN jI : Nat) (l : List Nat) (acc : CLayer) :
    ((l.foldl (kBody cfg iLayer prev act iN jI) acc)).is_input = acc.is_input :=
  foldl_preserve CLayer.is_input (kBody cfg iLayer prev act iN jI) (fun _ _ => rfl) l acc

theorem kfold_outputs (cfg : NetConfig) (iLayer : Nat) (prev : CLayer) (act : ActOut)
    (iN jI : Nat) (l : List Nat) (acc : CLayer) :
    ((l.foldl (kBody cfg iLayer prev act iN jI) acc)).outputs = acc.outputs :=
  foldl_preserve CLayer.outputs (kBody cfg iLayer prev act iN jI) (fun _ _ => rfl) l acc

theorem kfold_d2_of_ne (cfg : NetConfig) (iLayer : Nat) (prev : CLayer) (act : ActOut)
    (iN jI : Nat) (l : List Nat) (acc : CLayer) (a b c : Nat) (h : ¬(a = iN ∧ b = jI)) :
    ((l.foldl (kBody cfg iLayer prev act iN jI) acc)).d2YdX2 a b c = acc.d2YdX2 a b c :=
  foldl_preserve (fun L => L.d2YdX2 a b c) (kBody cfg iLayer prev act iN jI)
    (fun s k => CLayer.Setd2YdX2_d2_of_ne s iN jI k a b c _
      (fun h2 => h ⟨h2.1, h2.2.1⟩)) l acc

theorem kfold_d2_of_mem (cfg : NetConfig) (iLayer : Nat) (prev : CLayer) (act : ActOut)
    (iN jI : Nat) (l : List Nat) (hnd : l.Nodup) (acc : CLayer) (k : Nat) (hk : k ∈ l) :
    ((l.foldl (kBody cfg iLayer prev act iN jI) acc)).d2YdX2 iN jI k =
      act.Phi_dprime * ComputePsi cfg iLayer prev iN jI * ComputePsi cfg iLayer prev iN k +
        act.Phi_prime * ComputeChi cfg iLayer prev iN jI k :=
  foldl_write_once (fun _ => True) (fun L c => L.d2YdX2 iN jI c)
    (kBody cfg iLayer prev act iN jI)
    (fun c => act.Phi_dprime * ComputePsi cfg iLayer prev iN jI *
      ComputePsi cfg iLayer prev iN c + act.Phi_prime * ComputeChi cfg iLayer prev iN jI c)
    (fun _ _ _ => trivial)
    (fun s a _ => CLayer.Setd2YdX2_d2_self s iN jI a _)
    (fun s i a hne =>
      CLayer.Setd2YdX2_d2_of_ne s iN jI a iN jI i _ (fun h2 => hne h2.2.2))
    l hnd acc trivial k hk

theorem jBody_bias (cfg : NetConfig) (iLayer : Nat) (prev : CLayer) (nIn : Nat)
    (act : ActOut) (iN : Nat) (acc : CLayer) (j : Nat) :
    (jBody cfg iLayer prev nIn act iN acc j).bias = acc.bias := by
  unfold jBody
  dsimp only
  split
  · rw [kfold_bias]
    rfl
  · rfl

theorem jBody_nNeurons (cfg : NetConfig) (iLayer : Nat) (prev : CLayer) (nIn : Nat)
    (act : ActOut) (iN : Nat) (acc : CLayer) (j : Nat) :
    (jBody cfg iLayer prev nIn act iN acc j).nNeurons = acc.nNeurons := by
  unfold jBody
  dsimp only
  split
  · rw [kfold_nNeurons]
    rfl
  · rfl

theorem jBody_is_inp (cfg : NetConfig) (iLayer : Nat) (prev : CLayer) (nIn : Nat)
    (act : ActOut) (iN : Nat) (acc : CLayer) (j : Nat) :
    (jBody cfg iLayer prev nIn act iN acc j).is_input = acc.is_input := by
  unfold jBody
  dsimp only
  split
  · rw [kfold_is_inp]
    rfl
  · rfl

theorem jBody_outputs (cfg : NetConfig) (iLayer : Nat) (prev : CLayer) (nIn : Nat)
    (act : ActOut) (iN : Nat) (acc : CLayer) (j : Nat) :
    (jBody cfg iLayer prev nIn act iN acc j).outputs = acc.outputs := by
  unfold jBody
  dsimp only
  split
  · rw [kfold_outputs]
    rfl
  · rfl

theorem jBody_dYdX_of_ne (cfg : NetConfig) (iLayer : Nat) (prev : CLayer) (nIn : Nat)
    (act : ActOut) (iN : Nat) (acc : CLayer) (j a b : Nat) (h : ¬(a = iN ∧ b = j)) :
    (jBody cfg iLayer prev nIn act iN acc j).dYdX a b = acc.dYdX a b := by
  unfold jBody
  dsimp only
  split
  · rw [kfold_dYdX]
    exact CLayer.SetdYdX_dYdX_of_ne acc iN j a b _ h
  · exact CLayer.SetdYdX_dYdX_of_ne acc iN j a b _ h

theorem jBody_dYdX_self (cfg : NetConfig) (iLayer : Nat) (prev : CLayer) (nIn : Nat)
    (act : ActOut) (iN : Nat) (acc : CLayer) (j : Nat) :
    (jBody cfg iLayer prev nIn act iN acc j).dYdX iN j =
      ComputePsi cfg iLayer prev iN j * act.Phi_prime := by
  unfold jBody
  dsimp only
  split
  · rw [kfold_dYdX]
    exact CLayer.SetdYdX_dYdX_self acc iN j _
  · exact CLayer.SetdYdX_dYdX_self acc iN j _

theorem jBody_d2_of_ne (cfg : NetConfig) (iLayer : Nat) (prev : CLayer) (nIn : Nat)
    (act : ActOut) (iN : Nat) (acc : CLayer) (j a b c : Nat) (h : ¬(a = iN ∧ b = j)) :
    (jBody cfg iLayer prev nIn act iN acc j).d2YdX2 a b c = acc.d2YdX2 a b c := by
  unfold jBody
  dsimp only
  split
  · rw [kfold_d2_of_ne _ _ _ _ _ _ _ _ a b c h]
    rfl
  · rfl

theorem jBody_d2_self (cfg : NetConfig) (iLayer : Nat) (prev : CLayer) (nIn : Nat)
    (act : ActOut) (iN : Nat) (acc : CLayer) (j k : Nat)
    (hcsg : cfg.compute_second_gradient = true) (hk : k < nIn) :
    (jBody cfg iLayer prev nIn act iN acc j).d2YdX2 iN j k =
      act.Phi_dprime * ComputePsi cfg iLayer prev iN j * ComputePsi cfg iLayer prev iN k +
        act.Phi_prime * ComputeChi cfg iLayer prev iN j k := by
  unfold jBody
  dsimp only
  rw [if_pos hcsg]
  exact kfold_d2_of_mem cfg iLayer prev act iN j (List.range nIn) (List.nodup_range nIn) _
    k (List.mem_range.mpr hk)


theorem ActivationFunction_Phi_prime_eval (tag : Nat) (htag : tag ≤ 9) (csg : Bool)
    (x : ℝ) (prev : ActOut) :
    (ActivationFunction tag true csg x prev).Phi_prime = (actEval tag x).Phi_prime := by
  interval_cases tag <;> cases csg <;>
    first
      | rfl
      | (simp only [ActivationFunction, actEval]; split <;> rfl)

theorem ComputeX_congr (cfg : NetConfig) (iLayer : Nat) (cur1 cur2 prev : CLayer) (i : Nat)
    (h : cur1.bias = cur2.bias) :
    ComputeX cfg iLayer cur1 prev i = ComputeX cfg iLayer cur2 prev i := by
  unfold ComputeX CLayer.GetBias
  rw [h]

theorem computeNeuron_bias (cfg : NetConfig) (iLayer : Nat) (prev : CLayer) (nIn : Nat)
    (st : CLayer × ActOut) (i : Nat) :
    (computeNeuron cfg iLayer prev nIn st i).1.bias = st.1.bias := by
  unfold computeNeuron
  dsimp only
  split
  · exact (foldl_preserve CLayer.bias _ (fun s a => jBody_bias _ _ _ _ _ _ s a)
      (List.range nIn) _).trans rfl
  · rfl

theorem computeNeuron_nNeurons (cfg : NetConfig) (iLayer : Nat) (prev : CLayer) (nIn : Nat)
    (st : CLayer × ActOut) (i : Nat) :
    (computeNeuron cfg iLayer prev nIn st i).1.nNeurons = st.1.nNeurons := by
  unfold computeNeuron
  dsimp only
  split
  · exact (foldl_preserve CLayer.nNeurons _ (fun s a => jBody_nNeurons _ _ _ _ _ _ s a)
      (List.range nIn) _).trans rfl
  · rfl

theorem computeNeuron_is_inp (cfg : NetConfig) (iLayer : Nat) (prev : CLayer) (nIn : Nat)
    (st : CLayer × ActOut) (i : Nat) :
    (computeNeuron cfg iLayer prev nIn st i).1.is_input = st.1.is_input := by
  unfold computeNeuron
  dsimp only
  split
  · exact (foldl_preserve CLayer.is_input _ (fun s a => jBody_is_inp _ _ _ _ _ _ s a)
      (List.range nIn) _).trans rfl
  · rfl

theorem computeNeuron_dYdX_ne_row (cfg : NetConfig) (iLayer : Nat) (prev : CLayer)
    (nIn : Nat) (st : CLayer × ActOut) (i a b : Nat) (hne : a ≠ i) :
    (computeNeuron cfg iLayer prev nIn st i).1.dYdX a b = st.1.dYdX a b := by
  unfold computeNeuron
  dsimp only
  split
  · exact (foldl_preserve (fun L => L.dYdX a b) _
      (fun s j2 => jBody_dYdX_of_ne _ _ _ _ _ _ s j2 a b (fun h2 => hne h2.1))
      (List.range nIn) _).trans rfl
  · rfl

theorem computeNeuron_d2_ne_row (cfg : NetConfig) (iLayer : Nat) (prev : CLayer)
    (nIn : Nat) (st : CLayer × ActOut) (i a b c : Nat) (hne : a ≠ i) :
    (computeNeuron cfg iLayer prev nIn st i).1.d2YdX2 a b c = st.1.d2YdX2 a b c := by
  unfold computeNeuron
  dsimp only
  split
  · exact (foldl_preserve (fun L => L.d2YdX2 a b c) _
      (fun s j2 => jBody_d2_of_ne _ _ _ _ _ _ s j2 a b c (fun h2 => hne h2.1))
      (List.range nIn) _).trans rfl
  · rfl

theorem computeNeuron_dYdX_self (cfg : NetConfig) (iLayer : Nat) (prev : CLayer)
    (nIn : Nat) (st : CLayer × ActOut) (i j : Nat)
    (hcg : cfg.compute_gradient = true)
    (htag : cfg.activation_function_types iLayer ≤ 9) (hj : j < nIn) :
    (computeNeuron cfg iLayer prev nIn st i).1.dYdX i j =
      ComputePsi cfg iLayer prev i j *
        (actEval (cfg.activation_function_types iLayer)
          (ComputeX cfg iLayer st.1 prev i)).Phi_prime := by
  unfold computeNeuron
  dsimp only
  rw [if_pos hcg, hcg]
  rw [foldl_write_once (fun _ => True) (fun L b => L.dYdX i b) _
    (fun b => ComputePsi cfg iLayer prev i b *
      (ActivationFunction (cfg.activation_function_types iLayer) true
        cfg.compute_second_gradient (ComputeX cfg iLayer st.1 prev i) st.2).Phi_prime)
    (fun _ _ _ => trivial)
    (fun s a _ => jBody_dYdX_self _ _ _ _ _ _ s a)
    (fun s i2 a hne => jBody_dYdX_of_ne _ _ _ _ _ _ s a i i2 (fun h2 => hne h2.2))
    (List.range nIn) (List.nodup_range nIn) _ trivial j (List.mem_range.mpr hj)]
  rw [ActivationFunction_Phi_prime_eval _ htag]

theorem computeNeuron_d2_self (cfg : NetConfig) (iLayer : Nat) (prev : CLayer)
    (nIn : Nat) (st : CLayer × ActOut) (i j k : Nat)
    (hcg : cfg.compute_gradient = true) (hcsg : cfg.compute_second_gradient = true)
    (htag : cfg.activation_function_types iLayer ≤ 9) (hj : j < nIn) (hk : k < nIn) :
    (computeNeuron cfg iLayer prev nIn st i).1.d2YdX2 i j k =
      (actEval (cfg.activation_function_types iLayer)
          (ComputeX cfg iLayer st.1 prev i)).Phi_dprime *
        ComputePsi cfg iLayer prev i j * ComputePsi cfg iLayer prev i k +
      (actEval (cfg.activation_function_types iLayer)
          (ComputeX cfg iLayer st.1 prev i)).Phi_prime *
        ComputeChi cfg iLayer prev i j k := by
  unfold computeNeuron
  dsimp only
  rw [if_pos hcg, hcg, hcsg]
  rw [foldl_write_once (fun _ => True) (fun L b => L.d2YdX2 i b k) _
    (fun b =>
      (ActivationFunction (cfg.activation_function_types iLayer) true true
        (ComputeX cfg iLayer st.1 prev i) st.2).Phi_dprime *
        ComputePsi cfg iLayer prev i b * ComputePsi cfg iLayer prev i k +
      (ActivationFunction (cfg.activation_function_types iLayer) true true
        (ComputeX cfg iLayer st.1 prev i) st.2).Phi_prime *
        ComputeChi cfg iLayer prev i b k)
    (fun _ _ _ => trivial)
    (fun s a _ => jBody_d2_self _ _ _ _ _ _ s a k hcsg hk)
    (fun s i2 a hne => jBody_d2_of_ne _ _ _ _ _ _ s a i i2 k (fun h2 => hne h2.2))
    (List.range nIn) (List.nodup_range nIn) _ trivial j (List.mem_range.mpr hj)]
  rw [ActivationFunction_eval _ htag]

theorem neuronFold_bias (cfg : NetConfig) (iLayer : Nat) (prev : CLayer) (nIn : Nat)
    (l : List Nat) (st0 : CLayer × ActOut) :
    ((l.foldl (computeNeuron cfg iLayer prev nIn) st0)).1.bias = st0.1.bias :=
  foldl_preserve (fun st => st.1.bias) _
    (fun s a => computeNeuron_bias cfg iLayer prev nIn s a) l st0

theorem neuronFold_dYdX (cfg : NetConfig) (iLayer : Nat) (prev : CLayer) (nIn : Nat)
    (hcg : cfg.compute_gradient = true)
    (htag : cfg.activation_function_types iLayer ≤ 9)
    (l : List Nat) (hnd : l.Nodup) (st0 : CLayer × ActOut) (i : Nat) (hi : i ∈ l)
    (j : Nat) (hj : j < nIn) :
    ((l.foldl (computeNeuron cfg iLayer prev nIn) st0)).1.dYdX i j =
      ComputePsi cfg iLayer prev i j *
        (actEval (cfg.activation_function_types iLayer)
          (ComputeX cfg iLayer st0.1 prev i)).Phi_prime := by
  refine foldl_write_once (fun st => st.1.bias = st0.1.bias)
    (fun st a => st.1.dYdX a j) (computeNeuron cfg iLayer prev nIn)
    (fun a => ComputePsi cfg iLayer prev a j *
      (actEval (cfg.activation_function_types iLayer)
        (ComputeX cfg iLayer st0.1 prev a)).Phi_prime)
    (fun s a hP => (computeNeuron_bias cfg iLayer prev nIn s a).trans hP)
    (fun s a hP => ?_)
    (fun s i2 a hne => computeNeuron_dYdX_ne_row cfg iLayer prev nIn s a i2 j hne)
    l hnd st0 rfl i hi
  dsimp only
  rw [computeNeuron_dYdX_self cfg iLayer prev nIn s a j hcg htag hj,
    ComputeX_congr cfg iLayer s.1 st0.1 prev a hP]

theorem neuronFold_d2 (cfg : NetConfig) (iLayer : Nat) (prev : CLayer) (nIn : Nat)
    (hcg : cfg.compute_gradient = true) (hcsg : cfg.compute_second_gradient = true)
    (htag : cfg.activation_function_types iLayer ≤ 9)
    (l : List Nat) (hnd : l.Nodup) (st0 : CLayer × ActOut) (i : Nat) (hi : i ∈ l)
    (j k : Nat) (hj : j < nIn) (hk : k < nIn) :
    ((l.foldl (computeNeuron cfg iLayer prev nIn) st0)).1.d2YdX2 i j k =
      (actEval (cfg.activation_function_types iLayer)
          (ComputeX cfg iLayer st0.1 prev i)).Phi_dprime *
        ComputePsi cfg iLayer prev i j * ComputePsi cfg iLayer prev i k +
      (actEval (cfg.activation_function_types iLayer)
          (ComputeX cfg iLayer st0.1 prev i)).Phi_prime *
        ComputeChi cfg iLayer prev i j k := by
  refine foldl_write_once (fun st => st.1.bias = st0.1.bias)
    (fun st a => st.1.d2YdX2 a j k) (computeNeuron cfg iLayer prev nIn)
    (fun a =>
      (actEval (cfg.activation_function_types iLayer)
          (ComputeX cfg iLayer st0.1 prev a)).Phi_dprime *
        ComputePsi cfg iLayer prev a j * ComputePsi cfg iLayer prev a k +
      (actEval (cfg.activation_function_types iLayer)
          (ComputeX cfg iLayer st0.1 prev a)).Phi_prime *
        ComputeChi cfg iLayer prev a j k)
    (fun s a hP => (computeNeuron_bias cfg iLayer prev nIn s a).trans hP)
    (fun s a hP => ?_)
    (fun s i2 a hne => computeNeuron_d2_ne_row cfg iLayer prev nIn s a i2 j k hne)
    l hnd st0 rfl i hi
  dsimp only
  rw [computeNeuron_d2_self cfg iLayer prev nIn s a j k hcg hcsg htag hj hk,
    ComputeX_congr cfg iLayer s.1 st0.1 prev a hP]


theorem getD_set_ge {α : Type _} (l : List α) (i : Nat) (v d : α) (h : l.length ≤ i) :
    (l.set i v).getD i d = l.getD i d := by
  rw [List.getD_eq_getElem?_getD, List.getD_eq_getElem?_getD,
    List.getElem?_eq_none (by simpa using h), List.getElem?_eq_none h]

theorem inputJBody_nNeurons (cfg : NetConfig) (nIn : Nat) (iN : Nat) (acc : CLayer)
    (j : Nat) : (inputJBody cfg nIn iN acc j).nNeurons = acc.nNeurons := by
  unfold inputJBody
  dsimp only
  split
  · rw [foldl_preserve CLayer.nNeurons (inputKBody iN j) (fun _ _ => rfl)]
    split <;> rfl
  · split <;> rfl

theorem inputJBody_bias (cfg : NetConfig) (nIn : Nat) (iN : Nat) (acc : CLayer)
    (j : Nat) : (inputJBody cfg nIn iN acc j).bias = acc.bias := by
  unfold inputJBody
  dsimp only
  split
  · rw [foldl_preserve CLayer.bias (inputKBody iN j) (fun _ _ => rfl)]
    split <;> rfl
  · split <;> rfl

theorem inputJBody_is_inp (cfg : NetConfig) (nIn : Nat) (iN : Nat) (acc : CLayer)
    (j : Nat) : (inputJBody cfg nIn iN acc j).is_input = acc.is_input := by
  unfold inputJBody
  dsimp only
  split
  · rw [foldl_preserve CLayer.is_input (inputKBody iN j) (fun _ _ => rfl)]
    split <;> rfl
  · split <;> rfl

theorem ComputeInputLayer_nNeurons (cfg : NetConfig) (inputs : List ℝ) (nIn : Nat)
    (L : CLayer) (i : Nat) :
    (ComputeInputLayer cfg inputs nIn L i).nNeurons = L.nNeurons := by
  unfold ComputeInputLayer
  dsimp only
  split
  · exact (foldl_preserve CLayer.nNeurons _ (fun s a => inputJBody_nNeurons cfg nIn i s a)
      (List.range nIn) _).trans rfl
  · rfl

theorem neuronFold_nNeurons (cfg : NetConfig) (iLayer : Nat) (prev : CLayer) (nIn : Nat)
    (l : List Nat) (st0 : CLayer × ActOut) :
    ((l.foldl (computeNeuron cfg iLayer prev nIn) st0)).1.nNeurons = st0.1.nNeurons :=
  foldl_preserve (fun st => st.1.nNeurons) _
    (fun s a => computeNeuron_nNeurons cfg iLayer prev nIn s a) l st0

theorem stepLayer_length (cfg : NetConfig) (inputs : List ℝ)
    (st : List CLayer × ActOut) (a : Nat) :
    (stepLayer cfg inputs st a).1.length = st.1.length := by
  unfold stepLayer
  dsimp only
  split
  · simp
  · simp

theorem stepLayer_getD_ne (cfg : NetConfig) (inputs : List ℝ)
    (st : List CLayer × ActOut) (a m : Nat) (hne : a ≠ m) :
    (stepLayer cfg inputs st a).1.getD m default = st.1.getD m default := by
  unfold stepLayer
  dsimp only
  split
  · exact getD_set_of_ne _ _ _ _ _ hne
  · exact getD_set_of_ne _ _ _ _ _ hne

theorem stepLayer_getD_nNeurons (cfg : NetConfig) (inputs : List ℝ)
    (st : List CLayer × ActOut) (a m : Nat) :
    ((stepLayer cfg inputs st a).1.getD m default).nNeurons
      = (st.1.getD m default).nNeurons := by
  by_cases hne : a = m
  · subst hne
    by_cases hlt : a < st.1.length
    · unfold stepLayer
      dsimp only
      split
      · rw [getD_set_self _ _ _ _ hlt]
        exact (foldl_preserve CLayer.nNeurons _
          (fun s i => ComputeInputLayer_nNeurons cfg inputs _ s i) _ _)
      · rw [getD_set_self _ _ _ _ hlt]
        exact neuronFold_nNeurons _ _ _ _ _ _
    · push_neg at hlt
      unfold stepLayer
      dsimp only
      split
      · rw [getD_set_ge _ _ _ _ hlt]
      · rw [getD_set_ge _ _ _ _ hlt]
  · rw [stepLayer_getD_ne cfg inputs st a m hne]


theorem stepLayer_getD_self_nonInput (cfg : NetConfig) (inputs : List ℝ)
    (s : List CLayer × ActOut) (m : Nat) (hlt : m < s.1.length)
    (hninp : (s.1.getD m default).is_input = false) :
    (stepLayer cfg inputs s m).1.getD m default =
      ((List.range (s.1.getD m default).nNeurons).foldl
        (computeNeuron cfg m (s.1.getD (m - 1) default) ((s.1.getD 0 default).nNeurons))
        (s.1.getD m default, s.2)).1 := by
  unfold stepLayer
  dsimp only
  rw [hninp]
  simp only [Bool.false_eq_true, if_false]
  exact getD_set_self _ _ _ _ hlt

/-- C1: during Predict's layer loop (the forward pass, before output
denormalization), every neuron of a non-input layer stores as its first
derivative with respect to input j the value Φ′·ψⱼ, where ψⱼ is the
weighted sum of the previous layer's stored first derivatives and Φ′ is
the activation's first derivative at the neuron's pre-activation (bias
plus weighted sum of previous-layer outputs); with second-derivative mode
also enabled it stores as the second derivative for the pair (j, k) the
value Φ″·ψⱼ·ψₖ + Φ′·χⱼₖ, where χⱼₖ is the weighted sum of previous-layer
second derivatives. -/
theorem C1_predict_chain_rule (cfg : NetConfig) (inputs : List ℝ) (st0 : NetState)
    (hcg : cfg.compute_gradient = true) (hcsg : cfg.compute_second_gradient = true)
    (iLayer : Nat) (h1 : 1 ≤ iLayer) (h2 : iLayer < st0.layers.length)
    (hninp : (st0.layers.getD iLayer default).is_input = false)
    (htag : cfg.activation_function_types iLayer ≤ 9)
    (iNeuron : Nat) (hi : iNeuron < (st0.layers.getD iLayer default).nNeurons)
    (jInput : Nat) (hj : jInput < (st0.layers.getD 0 default).nNeurons)
    (kInput : Nat) (hk : kInput < (st0.layers.getD 0 default).nNeurons) :
    ((forwardPass cfg inputs st0).layers.getD iLayer default).GetdYdX iNeuron jInput =
      (actEval (cfg.activation_function_types iLayer)
          (ComputeX cfg iLayer
            ((forwardPass cfg inputs st0).layers.getD iLayer default)
            ((forwardPass cfg inputs st0).layers.getD (iLayer - 1) default)
            iNeuron)).Phi_prime *
        ComputePsi cfg iLayer
          ((forwardPass cfg inputs st0).layers.getD (iLayer - 1) default) iNeuron jInput ∧
    ((forwardPass cfg inputs st0).layers.getD iLayer default).Getd2YdX2
        iNeuron jInput kInput =
      (actEval (cfg.activation_function_types iLayer)
          (ComputeX cfg iLayer
            ((forwardPass cfg inputs st0).layers.getD iLayer default)
            ((forwardPass cfg inputs st0).layers.getD (iLayer - 1) default)
            iNeuron)).Phi_dprime *
        ComputePsi cfg iLayer
          ((forwardPass cfg inputs st0).layers.getD (iLayer - 1) default) iNeuron jInput *
        ComputePsi cfg iLayer
          ((forwardPass cfg inputs st0).layers.getD (iLayer - 1) default) iNeuron kInput +
      (actEval (cfg.activation_function_types iLayer)
          (ComputeX cfg iLayer
            ((forwardPass cfg inputs st0).layers.getD iLayer default)
            ((forwardPass cfg inputs st0).layers.getD (iLayer - 1) default)
            iNeuron)).Phi_prime *
        ComputeChi cfg iLayer
          ((forwardPass cfg inputs st0).layers.getD (iLayer - 1) default)
          iNeuron jInput kInput := by
  have e1 : List.range' 0 iLayer ++ [iLayer] = List.range' 0 (iLayer + 1) := by
    have h := List.range'_append 0 iLayer 1 1
    simp only [Nat.one_mul, Nat.zero_add, List.range'_one] at h
    rw [h, Nat.add_comm]
  have e2 : List.range' 0 (iLayer + 1) ++
      List.range' (iLayer + 1) (st0.layers.length - (iLayer + 1)) =
      List.range' 0 st0.layers.length := by
    have h := List.range'_append 0 (iLayer + 1) (st0.layers.length - (iLayer + 1)) 1
    simp only [Nat.one_mul, Nat.zero_add] at h
    rw [h]
    congr 1
    omega
  have hsplit : List.range st0.layers.length =
      (List.range' 0 iLayer ++ [iLayer]) ++
        List.range' (iLayer + 1) (st0.layers.length - (iLayer + 1)) := by
    rw [List.range_eq_range', ← e2, ← e1]
  have hfold : (List.range st0.layers.length).foldl (stepLayer cfg inputs)
        (st0.layers, st0.act) =
      (List.range' (iLayer + 1) (st0.layers.length - (iLayer + 1))).foldl
        (stepLayer cfg inputs)
        (stepLayer cfg inputs
          ((List.range' 0 iLayer).foldl (stepLayer cfg inputs) (st0.layers, st0.act))
          iLayer) := by
    rw [hsplit, List.foldl_append, List.foldl_append]
    rfl
  have hnotmem_hi : iLayer ∉ List.range' (iLayer + 1) (st0.layers.length - (iLayer + 1)) := by
    intro hmem
    rw [List.mem_range'] at hmem
    omega
  have hnotmem_prev :
      iLayer - 1 ∉ List.range' (iLayer + 1) (st0.layers.length - (iLayer + 1)) := by
    intro hmem
    rw [List.mem_range'] at hmem
    omega
  have hnotmem_lo : iLayer ∉ List.range' 0 iLayer := by
    intro hmem
    rw [List.mem_range'] at hmem
    omega
  have hskip : ∀ (s : List CLayer × ActOut) (i a : Nat), i ≠ a →
      ((stepLayer cfg inputs s a).1.getD i default) = s.1.getD i default :=
    fun s i a hne => stepLayer_getD_ne cfg inputs s a i (Ne.symm hne)
  -- the state after processing layers 0 .. iLayer-1
  have hcur : ((List.range st0.layers.length).foldl (stepLayer cfg inputs)
        (st0.layers, st0.act)).1.getD iLayer default =
      (stepLayer cfg inputs
        ((List.range' 0 iLayer).foldl (stepLayer cfg inputs) (st0.layers, st0.act))
        iLayer).1.getD iLayer default := by
    rw [hfold]
    exact foldl_skip (fun st x => st.1.getD x default) (stepLayer cfg inputs) hskip
      _ iLayer hnotmem_hi _
  have hprev : ((List.range st0.layers.length).foldl (stepLayer cfg inputs)
        (st0.layers, st0.act)).1.getD (iLayer - 1) default =
      ((List.range' 0 iLayer).foldl (stepLayer cfg inputs)
        (st0.layers, st0.act)).1.getD (iLayer - 1) default := by
    rw [hfold]
    rw [foldl_skip (fun st x => st.1.getD x default) (stepLayer cfg inputs) hskip
      _ (iLayer - 1) hnotmem_prev _]
    exact stepLayer_getD_ne cfg inputs _ iLayer (iLayer - 1) (by omega)
  have hLm : ((List.range' 0 iLayer).foldl (stepLayer cfg inputs)
        (st0.layers, st0.act)).1.getD iLayer default =
      st0.layers.getD iLayer default :=
    foldl_skip (fun st x => st.1.getD x default) (stepLayer cfg inputs) hskip
      _ iLayer hnotmem_lo _
  have hlen1 : ((List.range' 0 iLayer).foldl (stepLayer cfg inputs)
        (st0.layers, st0.act)).1.length = st0.layers.length :=
    foldl_preserve (fun st => st.1.length) (stepLayer cfg inputs)
      (stepLayer_length cfg inputs) _ _
  have hnIn : (((List.range' 0 iLayer).foldl (stepLayer cfg inputs)
        (st0.layers, st0.act)).1.getD 0 default).nNeurons =
      (st0.layers.getD 0 default).nNeurons :=
    foldl_preserve (fun st => (st.1.getD 0 default).nNeurons) (stepLayer cfg inputs)
      (fun s a => stepLayer_getD_nNeurons cfg inputs s a 0) _ _
  have hS2 := stepLayer_getD_self_nonInput cfg inputs
    ((List.range' 0 iLayer).foldl (stepLayer cfg inputs) (st0.layers, st0.act))
    iLayer (by rw [hlen1]; exact h2) (by rw [hLm]; exact hninp)
  rw [hLm, hnIn] at hS2
  have hbias : (((List.range (st0.layers.getD iLayer default).nNeurons).foldl
        (computeNeuron cfg iLayer
          (((List.range' 0 iLayer).foldl (stepLayer cfg inputs)
            (st0.layers, st0.act)).1.getD (iLayer - 1) default)
          ((st0.layers.getD 0 default).nNeurons))
        (st0.layers.getD iLayer default,
          ((List.range' 0 iLayer).foldl (stepLayer cfg inputs)
            (st0.layers, st0.act)).2)).1).bias =
      (st0.layers.getD iLayer default).bias :=
    neuronFold_bias _ _ _ _ _ _
  unfold forwardPass
  dsimp only
  rw [hcur, hprev, hS2]
  rw [ComputeX_congr cfg iLayer _ (st0.layers.getD iLayer default) _ iNeuron hbias]
  simp only [CLayer.GetdYdX, CLayer.Getd2YdX2]
  constructor
  · rw [neuronFold_dYdX cfg iLayer _ _ hcg htag _ (List.nodup_range _) _ iNeuron
      (List.mem_range.mpr hi) jInput hj]
    exact mul_comm _ _
  · rw [neuronFold_d2 cfg iLayer _ _ hcg hcsg htag _ (List.nodup_range _) _ iNeuron
      (List.mem_range.mpr hi) jInput kInput hj hk]


/-- A concrete one-input, one-neuron network used to instantiate the
forward-pass theorems: layer 0 is the input layer, layer 1 a linear
layer. -/
noncomputable def witnessLayer0 : CLayer :=
  { nNeurons := 1, outputs := fun _ => 0, bias := fun _ => 0,
    dYdX := fun _ _ => 0, d2YdX2 := fun _ _ _ => 0, is_input := true }

noncomputable def witnessLayer1 : CLayer :=
  { nNeurons := 1, outputs := fun _ => 0, bias := fun _ => 0,
    dYdX := fun _ _ => 0, d2YdX2 := fun _ _ _ => 0, is_input := false }

noncomputable def witnessConfig : NetConfig :=
  { weights_mat := fun _ _ _ => 1
    activation_function_types := fun _ => 1
    input_reg_method := ENUM_SCALING_FUNCTIONS.MINMAX
    output_reg_method := ENUM_SCALING_FUNCTIONS.MINMAX
    input_norm := [((0 : ℝ), (1 : ℝ))]
    output_norm := [((0 : ℝ), (1 : ℝ))]
    compute_gradient := true
    compute_second_gradient := true }

noncomputable def witnessState : NetState :=
  { layers := [witnessLayer0, witnessLayer1]
    act := { Phi := 0, Phi_prime := 0, Phi_dprime := 0 }
    ANN_outputs := fun _ => 0
    dOutputs_dInputs := fun _ _ => 0
    d2Outputs_dInputs2 := fun _ _ _ => 0 }

theorem C1_predict_chain_rule_witness :
    ((forwardPass witnessConfig [(1 : ℝ)] witnessState).layers.getD 1 default).GetdYdX 0 0 =
      (actEval (witnessConfig.activation_function_types 1)
          (ComputeX witnessConfig 1
            ((forwardPass witnessConfig [(1 : ℝ)] witnessState).layers.getD 1 default)
            ((forwardPass witnessConfig [(1 : ℝ)] witnessState).layers.getD 0 default)
            0)).Phi_prime *
        ComputePsi witnessConfig 1
          ((forwardPass witnessConfig [(1 : ℝ)] witnessState).layers.getD 0 default) 0 0 :=
  (C1_predict_chain_rule witnessConfig [(1 : ℝ)] witnessState rfl rfl 1 (le_refl 1)
      (by norm_num [witnessState]) rfl (by norm_num [witnessConfig])
      0 (by norm_num [witnessState, witnessLayer1])
      0 (by norm_num [witnessState, witnessLayer0])
      0 (by norm_num [witnessState, witnessLayer0])).1

theorem computeNeuron_cgfalse_dYdX (cfg : NetConfig) (iLayer : Nat) (prev : CLayer)
    (nIn : Nat) (st : CLayer × ActOut) (i : Nat) (hcg : cfg.compute_gradient = false) :
    (computeNeuron cfg iLayer prev nIn st i).1.dYdX = st.1.dYdX := by
  unfold computeNeuron
  dsimp only
  simp only [hcg, Bool.false_eq_true, if_false]
  rfl

theorem computeNeuron_cgfalse_d2 (cfg : NetConfig) (iLayer : Nat) (prev : CLayer)
    (nIn : Nat) (st : CLayer × ActOut) (i : Nat) (hcg : cfg.compute_gradient = false) :
    (computeNeuron cfg iLayer prev nIn st i).1.d2YdX2 = st.1.d2YdX2 := by
  unfold computeNeuron
  dsimp only
  simp only [hcg, Bool.false_eq_true, if_false]
  rfl

theorem ComputeInputLayer_cgfalse_dYdX (cfg : NetConfig) (inputs : List ℝ) (nIn : Nat)
    (L : CLayer) (i : Nat) (hcg : cfg.compute_gradient = false) :
    (ComputeInputLayer cfg inputs nIn L i).dYdX = L.dYdX := by
  unfold ComputeInputLayer
  dsimp only
  simp only [hcg, Bool.false_eq_true, if_false]
  rfl

theorem ComputeInputLayer_cgfalse_d2 (cfg : NetConfig) (inputs : List ℝ) (nIn : Nat)
    (L : CLayer) (i : Nat) (hcg : cfg.compute_gradient = false) :
    (ComputeInputLayer cfg inputs nIn L i).d2YdX2 = L.d2YdX2 := by
  unfold ComputeInputLayer
  dsimp only
  simp only [hcg, Bool.false_eq_true, if_false]
  rfl

theorem stepLayer_cgfalse_dYdX (cfg : NetConfig) (inputs : List ℝ)
    (st : List CLayer × ActOut) (a m : Nat) (hcg : cfg.compute_gradient = false) :
    ((stepLayer cfg inputs st a).1.getD m default).dYdX
      = ((st.1.getD m default)).dYdX := by
  by_cases hne : a = m
  · subst hne
    by_cases hlt : a < st.1.length
    · unfold stepLayer
      dsimp only
      split
      · rw [getD_set_self _ _ _ _ hlt]
        exact foldl_preserve CLayer.dYdX _
          (fun s i => ComputeInputLayer_cgfalse_dYdX cfg inputs _ s i hcg) _ _
      · rw [getD_set_self _ _ _ _ hlt]
        exact foldl_preserve (fun p => p.1.dYdX) _
          (fun s i => computeNeuron_cgfalse_dYdX cfg a _ _ s i hcg) _ _
    · push_neg at hlt
      unfold stepLayer
      dsimp only
      split
      · rw [getD_set_ge _ _ _ _ hlt]
      · rw [getD_set_ge _ _ _ _ hlt]
  · rw [stepLayer_getD_ne cfg inputs st a m hne]

theorem stepLayer_cgfalse_d2 (cfg : NetConfig) (inputs : List ℝ)
    (st : List CLayer × ActOut) (a m : Nat) (hcg : cfg.compute_gradient = false) :
    ((stepLayer cfg inputs st a).1.getD m default).d2YdX2
      = ((st.1.getD m default)).d2YdX2 := by
  by_cases hne : a = m
  · subst hne
    by_cases hlt : a < st.1.length
    · unfold stepLayer
      dsimp only
      split
      · rw [getD_set_self _ _ _ _ hlt]
        exact foldl_preserve CLayer.d2YdX2 _
          (fun s i => ComputeInputLayer_cgfalse_d2 cfg inputs _ s i hcg) _ _
      · rw [getD_set_self _ _ _ _ hlt]
        exact foldl_preserve (fun p => p.1.d2YdX2) _
          (fun s i => computeNeuron_cgfalse_d2 cfg a _ _ s i hcg) _ _
    · push_neg at hlt
      unfold stepLayer
      dsimp only
      split
      · rw [getD_set_ge _ _ _ _ hlt]
      · rw [getD_set_ge _ _ _ _ hlt]
  · rw [stepLayer_getD_ne cfg inputs st a m hne]

theorem denormNeuron_cgfalse_out (cfg : NetConfig) (nIn : Nat) (acc : DenormAcc)
    (i : Nat) (hcg : cfg.compute_gradient = false) :
    (denormNeuron cfg nIn acc i).out = acc.out := by
  unfold denormNeuron
  dsimp only
  simp only [hcg, Bool.false_eq_true, if_false]

theorem denormNeuron_cgfalse_dOuts (cfg : NetConfig) (nIn : Nat) (acc : DenormAcc)
    (i : Nat) (hcg : cfg.compute_gradient = false) :
    (denormNeuron cfg nIn acc i).dOutputs_dInputs = acc.dOutputs_dInputs := by
  unfold denormNeuron
  dsimp only
  simp only [hcg, Bool.false_eq_true, if_false]

theorem denormNeuron_cgfalse_d2Outs (cfg : NetConfig) (nIn : Nat) (acc : DenormAcc)
    (i : Nat) (hcg : cfg.compute_gradient = false) :
    (denormNeuron cfg nIn acc i).d2Outputs_dInputs2 = acc.d2Outputs_dInputs2 := by
  unfold denormNeuron
  dsimp only
  simp only [hcg, Bool.false_eq_true, if_false]

theorem DeNormalizeOutputs_cgfalse (cfg : NetConfig) (st : NetState)
    (hcg : cfg.compute_gradient = false) (m : Nat) :
    (DeNormalizeOutputs cfg st).layers.getD m default = st.layers.getD m default ∧
    (DeNormalizeOutputs cfg st).dOutputs_dInputs = st.dOutputs_dInputs ∧
    (DeNormalizeOutputs cfg st).d2Outputs_dInputs2 = st.d2Outputs_dInputs2 := by
  unfold DeNormalizeOutputs
  dsimp only
  have hout : ∀ (l : List Nat) (a0 : DenormAcc),
      (l.foldl (denormNeuron cfg ((st.layers.getD 0 default).nNeurons)) a0).out = a0.out :=
    foldl_preserve DenormAcc.out _
      (fun s a => denormNeuron_cgfalse_out cfg _ s a hcg)
  refine ⟨?_, ?_, ?_⟩
  · rw [hout]
    by_cases hne : st.layers.length - 1 = m
    · subst hne
      by_cases hlt : st.layers.length - 1 < st.layers.length
      · rw [getD_set_self _ _ _ _ hlt]
      · push_neg at hlt
        rw [getD_set_ge _ _ _ _ hlt]
    · exact getD_set_of_ne _ _ _ _ _ hne
  · exact foldl_preserve DenormAcc.dOutputs_dInputs _
      (fun s a => denormNeuron_cgfalse_dOuts cfg _ s a hcg) _ _
  · exact foldl_preserve DenormAcc.d2Outputs_dInputs2 _
      (fun s a => denormNeuron_cgfalse_d2Outs cfg _ s a hcg) _ _

/-- C10: with the first-order flag off, Predict leaves every layer's first
and second derivative buffers and the readable derivative buffers
untouched, whatever the value of the second-order flag. -/
theorem C10_gradient_gating (cfg : NetConfig) (inputs : List ℝ) (st0 : NetState)
    (hcg : cfg.compute_gradient = false) (l i j k : Nat) :
    ((Predict cfg inputs st0).layers.getD l default).dYdX i j
        = ((st0.layers.getD l default)).dYdX i j ∧
    ((Predict cfg inputs st0).layers.getD l default).d2YdX2 i j k
        = ((st0.layers.getD l default)).d2YdX2 i j k ∧
    (Predict cfg inputs st0).dOutputs_dInputs i j = st0.dOutputs_dInputs i j ∧
    (Predict cfg inputs st0).d2Outputs_dInputs2 i j k = st0.d2Outputs_dInputs2 i j k := by
  have hfw_dYdX : ∀ m, ((forwardPass cfg inputs st0).layers.getD m default).dYdX
      = ((st0.layers.getD m default)).dYdX := by
    intro m
    unfold forwardPass
    dsimp only
    exact foldl_preserve (fun st => (st.1.getD m default).dYdX) _
      (fun s a => stepLayer_cgfalse_dYdX cfg inputs s a m hcg) _ _
  have hfw_d2 : ∀ m, ((forwardPass cfg inputs st0).layers.getD m default).d2YdX2
      = ((st0.layers.getD m default)).d2YdX2 := by
    intro m
    unfold forwardPass
    dsimp only
    exact foldl_preserve (fun st => (st.1.getD m default).d2YdX2) _
      (fun s a => stepLayer_cgfalse_d2 cfg inputs s a m hcg) _ _
  have hd := DeNormalizeOutputs_cgfalse cfg (forwardPass cfg inputs st0) hcg l
  refine ⟨?_, ?_, ?_, ?_⟩
  · show ((DeNormalizeOutputs cfg (forwardPass cfg inputs st0)).layers.getD l
      default).dYdX i j = _
    rw [hd.1, hfw_dYdX l]
  · show ((DeNormalizeOutputs cfg (forwardPass cfg inputs st0)).layers.getD l
      default).d2YdX2 i j k = _
    rw [hd.1, hfw_d2 l]
  · show (DeNormalizeOutputs cfg (forwardPass cfg inputs st0)).dOutputs_dInputs i j = _
    rw [hd.2.1]
    rfl
  · show (DeNormalizeOutputs cfg (forwardPass cfg inputs st0)).d2Outputs_dInputs2 i j k = _
    rw [hd.2.2]
    rfl

/-- A variant of the witness network with gradient computation turned off
but second-derivative mode left on. -/
noncomputable def witnessConfigNoGrad : NetConfig :=
  { weights_mat := fun _ _ _ => 1
    activation_function_types := fun _ => 1
    input_reg_method := ENUM_SCALING_FUNCTIONS.MINMAX
    output_reg_method := ENUM_SCALING_FUNCTIONS.MINMAX
    input_norm := [((0 : ℝ), (1 : ℝ))]
    output_norm := [((0 : ℝ), (1 : ℝ))]
    compute_gradient := false
    compute_second_gradient := true }

theorem C10_gradient_gating_witness :
    ((Predict witnessConfigNoGrad [(1 : ℝ)] witnessState).layers.getD 1 default).dYdX 0 0
      = ((witnessState.layers.getD 1 default)).dYdX 0 0 ∧
    (Predict witnessConfigNoGrad [(1 : ℝ)] witnessState).dOutputs_dInputs 0 0
      = witnessState.dOutputs_dInputs 0 0 :=
  ⟨(C10_gradient_gating witnessConfigNoGrad [(1 : ℝ)] witnessState rfl 1 0 0 0).1,
   (C10_gradient_gating witnessConfigNoGrad [(1 : ℝ)] witnessState rfl 1 0 0 0).2.2.1⟩

end MLPToolbox
